import Mathlib

/-!
Verification of `terra_notebook_utils/workflows.py`.

The Python module is shallowly embedded below.  Python strings are modelled
as `List Char` wherever string algorithms (split, replace, parse) matter, and
as `String` at the interfaces.  Python floats are modelled as `ℚ`; Python
string-to-number conversions (`int(...)`, `float(...)`) are modelled by
executable parsers over `List Char` that follow the CPython grammar for the
literal forms that arise here (optional surrounding whitespace, optional
sign, digit runs, decimal point, exponent; the exotic forms `inf`, `nan`
and underscore separators are not modelled).  Fallible Python code is
modelled with `Except PyError`; the exception kinds that matter to the
module are distinguished by constructor.

The arithmetic operations of `ℚ` are restored to kernel-computable form so
that concrete runs of the embedded code can be checked by `decide`/`rfl`.
-/

attribute [local semireducible] Rat.add Rat.mul Rat.inv Rat.sub

/-- Exception kinds raised by the code under analysis.  `keyError` is the
missing-required-field error raised by the `js_get` accessor; `tnuCost` is
`TNUCostException`; the remaining kinds model Python `ValueError`,
`TypeError`/`AttributeError` and `IndexError`, none of which is caught by
`estimate_workflow_cost`. -/
inductive PyError where
  | keyError (msg : String)
  | tnuCost (msg : String)
  | valueError
  | typeError
  | attributeError
  | indexError
deriving DecidableEq, Repr

/-- The first positional argument of the exception (`exc.args[0]`), used in
the warning message of `estimate_workflow_cost`.  Only the two caught
exception kinds carry a message in this model. -/
def PyError.arg0 : PyError → String
  | .keyError m => m
  | .tnuCost m => m
  | _ => ""

/-- The exception kinds caught by the `except (KeyError, TNUCostException)`
clause of `estimate_workflow_cost`. -/
def PyError.caught : PyError → Bool
  | .keyError _ => true
  | .tnuCost _ => true
  | _ => false

/-- Scalar JSON values occurring in workflow metadata. -/
inductive JsVal where
  | str (s : String)
  | num (n : Int)
  | bool (b : Bool)
deriving DecidableEq, Repr

/-- JSON-like metadata trees: scalars, objects (insertion-ordered key/value
lists, as Python dicts) and arrays. -/
inductive Meta where
  | val (v : JsVal)
  | obj (fields : List (String × Meta))
  | arr (elems : List Meta)

/-- Association-list lookup for object fields (Python dict indexing). -/
def assocFind : List (String × Meta) → String → Option Meta
  | [], _ => none
  | (k, v) :: rest, key => if k = key then some v else assocFind rest key

/-- Python `key in dict` on a call-attempt record (top-level key test; the
code only applies it to dict-valued call metadata). -/
def Meta.hasKey (m : Meta) (k : String) : Bool :=
  match m with
  | .obj fs => (assocFind fs k).isSome
  | _ => false

/-- Traversal of a dotted path through nested objects. -/
def getAtPath : Meta → List String → Option Meta
  | m, [] => some m
  | .obj fs, k :: ks =>
      match assocFind fs k with
      | some v => getAtPath v ks
      | none => none
  | _, _ :: _ => none

/-- Python character-class test used by `str.split()` (no arguments),
restricted to the ASCII whitespace characters (code points 9 to 13 and
32). -/
def isSpaceCh (c : Char) : Bool :=
  c.toNat = 32 ∨ (9 ≤ c.toNat ∧ c.toNat ≤ 13)

/-- Python decimal-digit test (code points 48 to 57). -/
def isDigitCh (c : Char) : Bool := 48 ≤ c.toNat ∧ c.toNat ≤ 57

/-- Numeric value of a run of decimal digits. -/
def digitsValue (s : List Char) : Nat :=
  s.foldl (fun a c => a * 10 + (c.toNat - 48)) 0

/-- Strip leading and trailing Python whitespace. -/
def trimWs (s : List Char) : List Char :=
  ((s.dropWhile isSpaceCh).reverse.dropWhile isSpaceCh).reverse

/-- Helper for `pyIntChars`: a nonempty all-digit run, else `none`. -/
def digitsToNat : List Char → Option Nat
  | [] => none
  | s => if s.all isDigitCh then some (digitsValue s) else none

/-- Python `int(s)` on a string: optional whitespace, optional sign, then a
nonempty digit run.  Returns `none` where CPython raises `ValueError`. -/
def pyIntChars (s : List Char) : Option Int :=
  match trimWs s with
  | '+' :: ds => (digitsToNat ds).map Int.ofNat
  | '-' :: ds => (digitsToNat ds).map (fun n => -(n : Int))
  | ds => (digitsToNat ds).map Int.ofNat

/-- Exponent part of a Python float literal (after the `e`/`E`). -/
def pyFloatExp (sign mant : ℚ) (r : List Char) : Option ℚ :=
  let esign : Int := match r with
    | '-' :: _ => -1
    | _ => 1
  let r3 : List Char := match r with
    | '+' :: q => q
    | '-' :: q => q
    | q => q
  if r3 ≠ [] ∧ r3.all isDigitCh then
    some (sign * mant * 10 ^ (esign * (digitsValue r3 : Int)))
  else none

/-- Python `float(s)` on a string: optional whitespace and sign, a mantissa
`digits[.digits]` with at least one digit, and an optional exponent.
Returns `none` where CPython raises `ValueError`. -/
def pyFloatChars (s : List Char) : Option ℚ :=
  let t := trimWs s
  let sign : ℚ := match t with
    | '-' :: _ => -1
    | _ => 1
  let t1 : List Char := match t with
    | '+' :: r => r
    | '-' :: r => r
    | r => r
  let ip := t1.takeWhile isDigitCh
  let r1 := t1.dropWhile isDigitCh
  let fp : List Char := match r1 with
    | '.' :: r => r.takeWhile isDigitCh
    | _ => []
  let r2 : List Char := match r1 with
    | '.' :: r => r.dropWhile isDigitCh
    | r => r
  if ip = [] ∧ fp = [] then none
  else
    let mant : ℚ := (digitsValue ip : ℚ) + (digitsValue fp : ℚ) / 10 ^ fp.length
    match r2 with
    | [] => some (sign * mant)
    | 'e' :: r => pyFloatExp sign mant r
    | 'E' :: r => pyFloatExp sign mant r
    | _ => none

/-- Python `s.split(sep)` for a one-character separator and no limit:
always returns at least one (possibly empty) part. -/
def pySplit (sep : Char) : List Char → List (List Char)
  | [] => [[]]
  | c :: cs =>
      let r := pySplit sep cs
      if c = sep then [] :: r
      else
        match r with
        | h :: t => (c :: h) :: t
        | [] => [[c]]

/-- Split off everything before and after the first occurrence of `sep`. -/
def splitFirst (sep : Char) : List Char → Option (List Char × List Char)
  | [] => none
  | c :: cs =>
      if c = sep then some ([], cs)
      else
        match splitFirst sep cs with
        | some (a, b) => some (c :: a, b)
        | none => none

/-- Python `s.split(sep, maxsplit)` for a one-character separator: at most
`maxsplit` splits, the last part keeping any further separators. -/
def pySplitLimit (sep : Char) : Nat → List Char → List (List Char)
  | 0, s => [s]
  | n + 1, s =>
      match splitFirst sep s with
      | none => [s]
      | some (a, b) => a :: pySplitLimit sep n b

/-- Recursion core of `pyWsSplit`; the fuel argument only makes the
recursion structural (each step consumes at least one character, so any
fuel of at least the input length gives the same result). -/
def pyWsSplitGo : Nat → List Char → List (List Char)
  | 0, _ => []
  | fuel + 1, s =>
      match s.dropWhile isSpaceCh with
      | [] => []
      | c :: cs =>
          (c :: cs.takeWhile (fun x => ¬ isSpaceCh x)) ::
            pyWsSplitGo fuel (cs.dropWhile (fun x => ¬ isSpaceCh x))

/-- Python `s.split()` with no arguments: split on runs of whitespace,
discarding empty parts. -/
def pyWsSplit (s : List Char) : List (List Char) :=
  pyWsSplitGo (s.length + 1) s

/-- Recursion core of `replaceAll`; the fuel argument only makes the
recursion structural (each step consumes at least one character, so any
fuel of at least the input length gives the same result). -/
def replaceAllGo (pat : List Char) : Nat → List Char → List Char
  | _, [] => []
  | 0, s => s
  | fuel + 1, c :: cs =>
      if pat ≠ [] ∧ pat.isPrefixOf (c :: cs) then
        replaceAllGo pat fuel ((c :: cs).drop pat.length)
      else
        c :: replaceAllGo pat fuel cs

/-- Python `s.replace(pat, "")` for a nonempty pattern: removes every
occurrence of `pat`, scanning left to right without overlap. -/
def replaceAll (pat s : List Char) : List Char :=
  replaceAllGo pat s.length s

/-- Modelled from the spec: `js_get` from `terra_notebook_utils.utils` (the
module is not part of the analysed sources).  Per the spec it is "a
structured-field accessor that reads a dotted path out of nested key-value
metadata, returning a provided default if any segment is absent, and failing
with a required-field-missing error if no default was given and the path is
absent".  The error message is modelled as the dotted path. -/
def js_get (path : String) (m : Meta) (default : Option Meta := none) :
    Except PyError Meta :=
  match getAtPath m ((pySplit '.' path.data).map String.mk) with
  | some v => .ok v
  | none =>
      match default with
      | some d => .ok d
      | none => .error (.keyError path)

/-- The byte pattern removed by `_parse_machine_type` before splitting. -/
def n2dPat : List Char := ['n', '2', 'd', '-']

/-- The leading part a machine type must have after prefix removal. -/
def customChars : List Char := ['c', 'u', 's', 't', 'o', 'm']

/-- Embedding of `_parse_machine_type` (workflows.py lines 121 to 132):
remove every occurrence of `n2d-` (Python `str.replace` removes all
occurrences, not only a prefix), split on `-` into at most three parts,
require exactly three parts with first part `custom`, then convert the two
remaining parts with `int(...)` and `float(...) / 1024`; conversion failure
becomes `TNUCostException`.  Error messages are modelled without the quote
characters of the originals. -/
def _parse_machine_type (machine_type : String) : Except PyError (Int × ℚ) :=
  let mt := replaceAll n2dPat machine_type.data
  let parts := pySplitLimit '-' 2 mt
  match parts with
  | [p0, p1, p2] =>
      if p0 = customChars then
        match pyIntChars p1, pyFloatChars p2 with
        | some cpus, some memory =>
            .ok (cpus, memory / 1024)
        | _, _ =>
            .error (.tnuCost ("Cannot parse cpus and memory from " ++ String.mk mt))
      else
        .error (.tnuCost ("Cannot estimate costs for machine type " ++ String.mk mt ++
          "Please contact terra-notebook-utils maintainers to add support"))
  | _ =>
      .error (.tnuCost ("Cannot estimate costs for machine type " ++ String.mk mt ++
        "Please contact terra-notebook-utils maintainers to add support"))

/-- Read exactly `n` decimal digits, returning their value and the rest. -/
def readDigits : Nat → List Char → Option (Nat × List Char)
  | 0, s => some (0, s)
  | _ + 1, [] => none
  | n + 1, c :: cs =>
      if isDigitCh c then
        match readDigits n cs with
        | some (v, rest) => some ((c.toNat - 48) * 10 ^ n + v, rest)
        | none => none
      else none

/-- Day number of a Gregorian date (days since 1970-01-01, the standard
days-from-civil computation; the dates produced by `strptime` here have
nonnegative years, so all divisions below act on nonnegative values). -/
def daysFromCivil (y : Int) (m d : Nat) : Int :=
  let y' : Int := if m ≤ 2 then y - 1 else y
  let era : Int := y' / 400
  let yoe : Int := y' - era * 400
  let mp : Nat := (m + 9) % 12
  let doy : Int := (153 * mp + 2) / 5 + d - 1
  let doe : Int := yoe * 365 + yoe / 4 - yoe / 100 + doy
  era * 146097 + doe - 719468

/-- Embedding of
`datetime.strptime(s, "%Y-%m-%dT%H:%M:%S.%fZ")` followed by conversion to
seconds (so that subtracting two parsed values models
`(end - start).total_seconds()`).  The accepted shape is four year digits,
two month digits (01 to 12), two day digits (01 to 31), literal `T`,
two hour digits (at most 23), `:`, two minute digits (at most 59), `:`,
two second digits (at most 61), `.`, one to six fractional digits, and a
final literal `Z`.  Returns `none` where CPython raises `ValueError`. -/
def parseStrptime (s : List Char) : Option ℚ :=
  match readDigits 4 s with
  | none => none
  | some (y, r0) =>
    match r0 with
    | '-' :: r1 =>
      match readDigits 2 r1 with
      | none => none
      | some (mo, r2) =>
        match r2 with
        | '-' :: r3 =>
          match readDigits 2 r3 with
          | none => none
          | some (d, r4) =>
            match r4 with
            | 'T' :: r5 =>
              match readDigits 2 r5 with
              | none => none
              | some (hh, r6) =>
                match r6 with
                | ':' :: r7 =>
                  match readDigits 2 r7 with
                  | none => none
                  | some (mi, r8) =>
                    match r8 with
                    | ':' :: r9 =>
                      match readDigits 2 r9 with
                      | none => none
                      | some (ss, r10) =>
                        match r10 with
                        | '.' :: r11 =>
                          let fracDigits := r11.takeWhile isDigitCh
                          let rest := r11.dropWhile isDigitCh
                          if 1 ≤ fracDigits.length ∧ fracDigits.length ≤ 6 ∧
                              rest = ['Z'] ∧
                              1 ≤ mo ∧ mo ≤ 12 ∧ 1 ≤ d ∧ d ≤ 31 ∧
                              hh ≤ 23 ∧ mi ≤ 59 ∧ ss ≤ 61 then
                            some ((daysFromCivil y mo d : ℚ) * 86400 +
                              hh * 3600 + mi * 60 + ss +
                              (digitsValue fracDigits : ℚ) / 10 ^ fracDigits.length)
                          else none
                        | _ => none
                    | _ => none
                | _ => none
            | _ => none
        | _ => none
    | _ => none

/-- Python `int(x)` applied to a JSON value, as in
`int(js_get("callCaching.hit", ...))`: booleans become 0 or 1, integers pass
through, strings are parsed, and non-scalar values raise `TypeError` (which
`estimate_workflow_cost` does not catch). -/
def pyIntOf : Meta → Except PyError Int
  | .val (.bool b) => .ok (if b then 1 else 0)
  | .val (.num n) => .ok n
  | .val (.str s) =>
      match pyIntChars s.data with
      | some n => .ok n
      | none => .error .valueError
  | _ => .error .typeError

/-- Python equality test of a JSON value against a string literal, as in
`backendStatus == "Preempted"`: only an equal string compares true. -/
def metaEqStr (m : Meta) (s : String) : Bool :=
  match m with
  | .val (.str t) => t = s
  | _ => false

/-- External cost collaborators of the estimator: the module
`terra_notebook_utils.costs` (excluded from the analysed core as a
collaborator) is abstracted as a record of pure pricing functions. -/
structure CostModel where
  persistentDisk : ℚ → ℚ → ℚ
  localSSDDisk : ℚ → ℚ → ℚ
  customN1 : Int → ℚ → ℚ → Bool → ℚ
  customN2 : Int → ℚ → ℚ → Bool → ℚ

/-- Preemption outcome field of an emitted record: the Python value is the
string `"NA"` or a boolean. -/
inductive Preempted where
  | na
  | flag (b : Bool)
deriving DecidableEq, Repr

/-- The dictionary yielded per call attempt by `estimate_workflow_cost`.
`machine_type` keeps the raw metadata value (the code stores the `js_get`
result there), with the string `"NA"` as its initial sentinel. -/
structure CostRecord where
  task_name : String
  cost : ℚ
  number_of_cpus : Int
  memory : ℚ
  disk : ℚ
  duration : ℚ
  call_cached : Bool
  preempted : Preempted
  machine_type : Meta

/-- Lines 92 to 96 of workflows.py: disk size in GB from the disk
descriptor.  A descriptor starting with the string `local-disk` is split on
whitespace and must yield exactly three tokens (otherwise the unpacking
raises `ValueError`, uncaught); the middle token is converted with
`float(...)`.  Any other descriptor gives the 1 GB guess. -/
def local_disk_chars : List Char := ['l', 'o', 'c', 'a', 'l', '-', 'd', 'i', 's', 'k']

/-- Token tested by `disk_description.endswith("LOCAL")`. -/
def localSuffix : List Char := ['L', 'O', 'C', 'A', 'L']

def diskSizeGb (disk_description : List Char) : Except PyError ℚ :=
  if local_disk_chars.isPrefixOf disk_description then
    match pyWsSplit disk_description with
    | [_, size_gb, _] =>
        match pyFloatChars size_gb with
        | some q => .ok q
        | none => .error .valueError
    | _ => .error .valueError
  else
    .ok 1

/-- The body of the `try` block of `estimate_workflow_cost` (lines 73 to
116) for a single call attempt, in source order: task name from the call
name, cache-hit flag, then for non-cached attempts machine type, start/end
timestamps, preemptible flag and backend status, disk descriptor and disk
cost, CPU platform and instance cost.  Returns the record to yield, or the
exception the Python code would raise. -/
def attemptBody (C : CostModel) (call_name : String) (call_metadata : Meta) :
    Except PyError CostRecord := do
  let task_name ←
    match (pySplit '.' call_name.data).get? 1 with
    | some t => Except.ok (String.mk t)
    | none => Except.error PyError.indexError
  let hitVal ← js_get "callCaching.hit" call_metadata (some (Meta.val (JsVal.num 0)))
  let hitInt ← pyIntOf hitVal
  let call_cached : Bool := hitInt != 0
  if call_cached then
    pure { task_name := task_name, cost := 0, number_of_cpus := 0, memory := 0,
           disk := 0, duration := 0, call_cached := true,
           preempted := Preempted.na, machine_type := Meta.val (JsVal.str "NA") }
  else
    let machine_type ← js_get "jes.machineType" call_metadata
    let mtStr ←
      match machine_type with
      | Meta.val (JsVal.str s) => Except.ok s
      | _ => Except.error PyError.attributeError
    let parsed ← _parse_machine_type mtStr
    let startVal ← js_get "start" call_metadata
    let startSec ←
      match startVal with
      | Meta.val (JsVal.str s) =>
          match parseStrptime s.data with
          | some t => Except.ok t
          | none => Except.error PyError.valueError
      | _ => Except.error PyError.typeError
    let endVal ← js_get "end" call_metadata
    let endSec ←
      match endVal with
      | Meta.val (JsVal.str s) =>
          match parseStrptime s.data with
          | some t => Except.ok t
          | none => Except.error PyError.valueError
      | _ => Except.error PyError.typeError
    let runtime : ℚ := endSec - startSec
    let preVal ← js_get "runtimeAttributes.preemptible" call_metadata
    let preInt ← pyIntOf preVal
    let preemptible : Bool := preInt != 0
    let backendStatus ← js_get "backendStatus" call_metadata
    let preempted : Preempted :=
      if preemptible then Preempted.flag (metaEqStr backendStatus "Preempted")
      else Preempted.na
    let diskVal ← js_get "runtimeAttributes.disks" call_metadata (some (Meta.val (JsVal.str "")))
    let diskStr ←
      match diskVal with
      | Meta.val (JsVal.str s) => Except.ok s
      | _ => Except.error PyError.attributeError
    let disk_size_gb ← diskSizeGb diskStr.data
    let cost_disk : ℚ :=
      if localSuffix.isSuffixOf diskStr.data then C.localSSDDisk disk_size_gb runtime
      else C.persistentDisk disk_size_gb runtime
    let platVal ← js_get "runtimeAttributes.cpuPlatform" call_metadata (some (Meta.val (JsVal.str "")))
    let cost_instance : ℚ :=
      if metaEqStr platVal "Intel Cascade Lake" ∨ metaEqStr platVal "AMD Rome" then
        C.customN2 parsed.1 parsed.2 runtime preemptible
      else
        C.customN1 parsed.1 parsed.2 runtime preemptible
    let cost : ℚ := cost_instance + cost_disk
    pure { task_name := task_name, cost := cost, number_of_cpus := parsed.1,
           memory := parsed.2, disk := disk_size_gb, duration := runtime,
           call_cached := false, preempted := preempted,
           machine_type := machine_type }

/-- Outcome of one iteration of the attempt loop: sub-workflow references
are skipped before the `try` block; caught exceptions become logged
warnings; anything else escapes the generator. -/
inductive StepResult where
  | skip
  | record (r : CostRecord)
  | warn (msg : String)
  | fatal (e : PyError)

/-- The logged warning text of lines 118 to 119. -/
def costWarning (workflow_id : String) (e : PyError) : String :=
  "Unable to estimate costs for workflow " ++ workflow_id ++ ": " ++ e.arg0

/-- One iteration of the inner loop of `estimate_workflow_cost` for a call
attempt. -/
def attemptStep (C : CostModel) (workflow_id call_name : String) (call_metadata : Meta) :
    StepResult :=
  if call_metadata.hasKey "subWorkflowId" then .skip
  else
    match attemptBody C call_name call_metadata with
    | .ok r => .record r
    | .error e =>
        if e.caught then .warn (costWarning workflow_id e)
        else .fatal e

/-- Everything observable about a run of the generator: the records it
yields, the warnings it logs, and the uncaught exception that terminated
it, if any. -/
structure EstimateOutput where
  records : List CostRecord
  warnings : List String
  aborted : Option PyError

/-- Replay of a list of loop-iteration outcomes: records and warnings
accumulate until an uncaught exception stops everything after it. -/
def runSteps : List StepResult → EstimateOutput
  | [] => { records := [], warnings := [], aborted := none }
  | s :: rest =>
      match s with
      | .skip => runSteps rest
      | .record r =>
          let o := runSteps rest
          { records := r :: o.records, warnings := o.warnings, aborted := o.aborted }
      | .warn w =>
          let o := runSteps rest
          { records := o.records, warnings := w :: o.warnings, aborted := o.aborted }
      | .fatal e => { records := [], warnings := [], aborted := some e }

/-- The loop-iteration outcomes of `estimate_workflow_cost` over the
`calls` mapping (call name to attempt list, in insertion order).  Iterating
a non-array attempt-list value is modelled as an immediate `TypeError`. -/
def callSteps (C : CostModel) (workflow_id : String)
    (calls : List (String × Meta)) : List StepResult :=
  calls.flatMap fun nv =>
    match nv.2 with
    | Meta.arr ms => ms.map (attemptStep C workflow_id nv.1)
    | _ => [StepResult.fatal PyError.typeError]

/-- Embedding of `estimate_workflow_cost` applied to a calls mapping. -/
def estimateCalls (C : CostModel) (workflow_id : String)
    (calls : List (String × Meta)) : EstimateOutput :=
  runSteps (callSteps C workflow_id calls)

/-- Embedding of `estimate_workflow_cost` (workflows.py lines 66 to 119):
the `calls` field of the workflow metadata is iterated; a missing `calls`
key or a non-object value raises before anything is yielded. -/
def estimate_workflow_cost (C : CostModel) (workflow_id : String)
    (workflow_metadata : Meta) : EstimateOutput :=
  match workflow_metadata with
  | Meta.obj fs =>
      match assocFind fs "calls" with
      | some (Meta.obj callFields) => estimateCalls C workflow_id callFields
      | some _ => { records := [], warnings := [], aborted := some PyError.typeError }
      | none => { records := [], warnings := [], aborted := some (PyError.keyError "calls") }
  | _ => { records := [], warnings := [], aborted := some PyError.typeError }

/-- State of a `functools.lru_cache` wrapper: the cached entries in
most-recently-used-first order, and the log of keys whose values were
computed by calling the wrapped function (one entry per network fetch). -/
structure LruState (κ ν : Type) where
  entries : List (κ × ν)
  fetchLog : List κ

/-- Lookup in the entry list. -/
def cacheLookup [DecidableEq κ] : List (κ × ν) → κ → Option ν
  | [], _ => none
  | (k, v) :: rest, key => if k = key then some v else cacheLookup rest key

/-- Remove every entry for a key (used to move a hit entry to the front). -/
def removeKey [DecidableEq κ] : List (κ × ν) → κ → List (κ × ν)
  | [], _ => []
  | (k, v) :: rest, key =>
      if k = key then removeKey rest key else (k, v) :: removeKey rest key

/-- One call through an `lru_cache(maxsize)`-wrapped function: a hit
returns the stored value and moves its entry to the front; a miss calls the
wrapped function, logs the fetch, inserts the entry in front and drops the
least recently used entry beyond `maxsize`. -/
def lruCall [DecidableEq κ] (maxsize : Nat) (fetch : κ → ν)
    (st : LruState κ ν) (k : κ) : ν × LruState κ ν :=
  match cacheLookup st.entries k with
  | some v => (v, ⟨(k, v) :: removeKey st.entries k, st.fetchLog⟩)
  | none =>
      let v := fetch k
      (v, ⟨((k, v) :: st.entries).take maxsize, st.fetchLog ++ [k]⟩)

/-- Argument tuple of `get_submission`: submission id, workspace name,
workspace namespace (the latter two optional with ambient defaults). -/
abbrev SubmissionKey : Type := String × Option String × Option String

/-- Argument tuple of `get_workflow`: submission id, workflow id, workspace
name, workspace namespace. -/
abbrev WorkflowKey : Type := String × String × Option String × Option String

/-- Embedding of `get_submission` (workflows.py lines 26 to 33): the
network call `fiss.fapi.get_submission` is the external collaborator
`fetch`; the decorator `@lru_cache()` is `lruCall` with the CPython default
`maxsize=128`. -/
def get_submission (fetch : SubmissionKey → Meta)
    (st : LruState SubmissionKey Meta) (k : SubmissionKey) :
    Meta × LruState SubmissionKey Meta :=
  lruCall 128 fetch st k

/-- Embedding of `get_workflow` (workflows.py lines 35 to 43), cached the
same way as `get_submission`. -/
def get_workflow (fetch : WorkflowKey → Meta)
    (st : LruState WorkflowKey Meta) (k : WorkflowKey) :
    Meta × LruState WorkflowKey Meta :=
  lruCall 128 fetch st k

/-- Replay of a sequence of `get_submission` calls from a fresh process. -/
def get_submission_run (fetch : SubmissionKey → Meta) (ks : List SubmissionKey) :
    LruState SubmissionKey Meta :=
  ks.foldl (fun st k => (get_submission fetch st k).2) ⟨[], []⟩

/-- Replay of a sequence of `get_workflow` calls from a fresh process. -/
def get_workflow_run (fetch : WorkflowKey → Meta) (ks : List WorkflowKey) :
    LruState WorkflowKey Meta :=
  ks.foldl (fun st k => (get_workflow fetch st k).2) ⟨[], []⟩

/-- Number of keys in a request list not already seen (used to bound cache
occupancy). -/
def newDistinct [DecidableEq κ] (seen : List κ) : List κ → Nat
  | [] => 0
  | k :: ks => if k ∈ seen then newDistinct seen ks else 1 + newDistinct (k :: seen) ks

/-- Sub-workflow identifiers referenced by one workflow's metadata: the
set comprehension of workflows.py lines 54 to 57 (a Python set; modelled as
the deduplicated list in encounter order).  Metadata without a proper
`calls` object contributes nothing here (the Python code would raise on
it; the discoverer claims only concern well-formed metadata). -/
def subworkflowIds (wf : Meta) : List String :=
  match wf with
  | Meta.obj fs =>
      match assocFind fs "calls" with
      | some (Meta.obj callFields) =>
          (callFields.flatMap fun nv =>
            match nv.2 with
            | Meta.arr ms =>
                ms.filterMap fun m =>
                  match m with
                  | Meta.obj mfs =>
                      match assocFind mfs "subWorkflowId" with
                      | some (Meta.val (JsVal.str sid)) => some sid
                      | _ => none
                  | _ => none
            | _ => []).eraseDups
      | _ => []
  | _ => []

/-- Identifiers of the submission's initial workflows (workflows.py line
61): entries of the `workflows` list carrying a `workflowId` field; entries
without one are ignored. -/
def initial_workflow_ids (submission : Meta) : List String :=
  match submission with
  | Meta.obj fs =>
      match assocFind fs "workflows" with
      | some (Meta.arr wfs) =>
          (wfs.filterMap fun wf =>
            match wf with
            | Meta.obj wfFields =>
                match assocFind wfFields "workflowId" with
                | some (Meta.val (JsVal.str id)) => some id
                | _ => none
            | _ => none).eraseDups
      | _ => []
  | _ => []

/-- Modelled from the spec: `concurrent_recursion` from
`terra_notebook_utils.utils` (the module is not part of the analysed
sources).  Per the spec it "drives bounded-concurrency breadth-first
expansion, invoking expandFn(id) for each newly discovered identifier and
feeding its returned identifiers back into the frontier, until no new
identifiers remain", with a visited set so that no identifier is expanded
twice.  Scheduling is modelled sequentially (the spec leaves ordering
between sibling fetches unspecified); the fuel argument makes the recursion
structural, and theorems assume a completed run, i.e. an empty remaining
frontier.  Returns (visited identifiers in expansion order, remaining
frontier). -/
def crun (expand : String → List String) :
    Nat → List String → List String → List String × List String
  | 0, frontier, visited => (visited, frontier)
  | _ + 1, [], visited => (visited, [])
  | fuel + 1, id :: fr, visited =>
      if id ∈ visited then crun expand fuel fr visited
      else crun expand fuel (fr ++ expand id) (visited ++ [id])

/-- The expansion function supplied by `get_all_workflows` (lines 51 to
58): fetch a workflow's metadata from the environment and return its
sub-workflow identifiers. -/
def expandOf (env : String → Meta) : String → List String :=
  fun id => subworkflowIds (env id)

/-- Embedding of `get_all_workflows` (workflows.py lines 45 to 64): seed
the traversal with the submission's initial workflow identifiers and build
the identifier-to-metadata mapping, one entry per identifier expanded.
`env` abstracts the orchestration service (each workflow identifier's
metadata); metadata is recorded for an identifier exactly when the
expansion function runs for it. -/
def get_all_workflows (env : String → Meta) (submission : Meta) (fuel : Nat) :
    List (String × Meta) :=
  ((crun (expandOf env) fuel (initial_workflow_ids submission) []).1).map
    fun id => (id, env id)

/-- Transitive reachability through the expansion function, starting from
the seed identifiers. -/
inductive ReachesFrom (expand : String → List String) (seeds : List String) : String → Prop
  | seed {x : String} : x ∈ seeds → ReachesFrom expand seeds x
  | step {x y : String} : ReachesFrom expand seeds x → y ∈ expand x →
      ReachesFrom expand seeds y

/-- A throwaway concrete cost model for closed evaluations. -/
def C0 : CostModel :=
  { persistentDisk := fun s r => s + r
    localSSDDisk := fun s r => s + r + 1
    customN1 := fun _ _ _ p => if p then 2 else 3
    customN2 := fun _ _ _ p => if p then 4 else 5 }

/-- A fixed well-formed timestamp used by the concrete fixtures. -/
def ts0 : String := "2021-06-01T12:00:00.000000Z"

/-- Concrete non-cached attempt: persistent-disk descriptor. -/
def mSSD : Meta := Meta.obj
  [("jes", Meta.obj [("machineType", Meta.val (JsVal.str "custom-1-1024"))]),
   ("start", Meta.val (JsVal.str ts0)),
   ("end", Meta.val (JsVal.str ts0)),
   ("runtimeAttributes", Meta.obj
     [("preemptible", Meta.val (JsVal.str "0")),
      ("disks", Meta.val (JsVal.str "local-disk 50 SSD"))]),
   ("backendStatus", Meta.val (JsVal.str "Success"))]

/-- Concrete non-cached attempt: local-SSD disk descriptor. -/
def mLOCAL : Meta := Meta.obj
  [("jes", Meta.obj [("machineType", Meta.val (JsVal.str "custom-1-1024"))]),
   ("start", Meta.val (JsVal.str ts0)),
   ("end", Meta.val (JsVal.str ts0)),
   ("runtimeAttributes", Meta.obj
     [("preemptible", Meta.val (JsVal.str "0")),
      ("disks", Meta.val (JsVal.str "local-disk 50 LOCAL"))]),
   ("backendStatus", Meta.val (JsVal.str "Success"))]

/-- Concrete non-cached attempt: no disk descriptor at all. -/
def mNoDisk : Meta := Meta.obj
  [("jes", Meta.obj [("machineType", Meta.val (JsVal.str "custom-1-1024"))]),
   ("start", Meta.val (JsVal.str ts0)),
   ("end", Meta.val (JsVal.str ts0)),
   ("runtimeAttributes", Meta.obj
     [("preemptible", Meta.val (JsVal.str "0"))]),
   ("backendStatus", Meta.val (JsVal.str "Success"))]

/-- Concrete non-cached attempt whose `start` field holds an unparseable
timestamp (CPython `strptime` raises `ValueError`, which is not caught). -/
def mBadStart : Meta := Meta.obj
  [("jes", Meta.obj [("machineType", Meta.val (JsVal.str "custom-1-1024"))]),
   ("start", Meta.val (JsVal.str "garbage")),
   ("end", Meta.val (JsVal.str ts0)),
   ("runtimeAttributes", Meta.obj
     [("preemptible", Meta.val (JsVal.str "0")),
      ("disks", Meta.val (JsVal.str "local-disk 50 SSD"))]),
   ("backendStatus", Meta.val (JsVal.str "Success"))]

/-- Concrete non-cached attempt lacking the required `start` field. -/
def mNoStart : Meta := Meta.obj
  [("jes", Meta.obj [("machineType", Meta.val (JsVal.str "custom-1-1024"))]),
   ("end", Meta.val (JsVal.str ts0)),
   ("runtimeAttributes", Meta.obj
     [("preemptible", Meta.val (JsVal.str "0")),
      ("disks", Meta.val (JsVal.str "local-disk 50 SSD"))]),
   ("backendStatus", Meta.val (JsVal.str "Success"))]

/-- Concrete non-cached, non-preemptible attempt lacking `backendStatus`. -/
def mNoBackend : Meta := Meta.obj
  [("jes", Meta.obj [("machineType", Meta.val (JsVal.str "custom-1-1024"))]),
   ("start", Meta.val (JsVal.str ts0)),
   ("end", Meta.val (JsVal.str ts0)),
   ("runtimeAttributes", Meta.obj
     [("preemptible", Meta.val (JsVal.str "0")),
      ("disks", Meta.val (JsVal.str "local-disk 50 SSD"))])]

/-- Concrete cached attempt. -/
def mCached : Meta := Meta.obj
  [("callCaching", Meta.obj [("hit", Meta.val (JsVal.num 1))])]

/-- Concrete non-cached preemptible attempt whose backend status says it
was preempted. -/
def mPreempted : Meta := Meta.obj
  [("jes", Meta.obj [("machineType", Meta.val (JsVal.str "custom-1-1024"))]),
   ("start", Meta.val (JsVal.str ts0)),
   ("end", Meta.val (JsVal.str ts0)),
   ("runtimeAttributes", Meta.obj
     [("preemptible", Meta.val (JsVal.str "1")),
      ("disks", Meta.val (JsVal.str "local-disk 50 SSD"))]),
   ("backendStatus", Meta.val (JsVal.str "Preempted"))]

/-- Concrete environment for the discoverer example: initial workflows A
and B, A referencing sub-workflow C, C referencing sub-workflow D. -/
def envEx : String → Meta := fun id =>
  if id = "A" then
    Meta.obj [("calls", Meta.obj
      [("wf.x", Meta.arr [Meta.obj [("subWorkflowId", Meta.val (JsVal.str "C"))]])])]
  else if id = "C" then
    Meta.obj [("calls", Meta.obj
      [("wf.y", Meta.arr [Meta.obj [("subWorkflowId", Meta.val (JsVal.str "D"))]])])]
  else
    Meta.obj [("calls", Meta.obj [])]

/-- Concrete submission for the discoverer example; its third workflow
entry carries no `workflowId` and is ignored. -/
def subEx : Meta := Meta.obj
  [("workflows", Meta.arr
    [Meta.obj [("workflowId", Meta.val (JsVal.str "A"))],
     Meta.obj [("workflowId", Meta.val (JsVal.str "B"))],
     Meta.obj [("status", Meta.val (JsVal.str "Failed"))]])]

/-- Number of occurrences of a key in a list (decidable-equality based,
used to count fetches per key). -/
def countKey {κ : Type} [DecidableEq κ] (k : κ) : List κ → Nat
  | [] => 0
  | x :: xs => (if x = k then 1 else 0) + countKey k xs

/-! Helper lemmas about the string primitives. -/

theorem replaceAllGo_not_mem :
    ∀ (fuel : Nat) {s : List Char}, 'n' ∉ s → replaceAllGo n2dPat fuel s = s := by
  intro fuel
  induction fuel with
  | zero =>
      intro s _
      cases s with
      | nil => rfl
      | cons c cs => rfl
  | succ fuel ih =>
      intro s h
      cases s with
      | nil => rfl
      | cons c cs =>
          rw [replaceAllGo]
          have hc : c ≠ 'n' := by
            intro e
            exact h (by simp [e])
          have hcs : 'n' ∉ cs := fun m => h (List.mem_cons_of_mem _ m)
          rw [if_neg, ih hcs]
          intro hand
          have hp := hand.2
          simp only [n2dPat, List.isPrefixOf, Bool.and_eq_true, beq_iff_eq] at hp
          exact hc hp.1.symm

theorem replaceAll_not_mem {s : List Char} (h : 'n' ∉ s) : replaceAll n2dPat s = s :=
  replaceAllGo_not_mem s.length h

theorem replaceAll_strip {s : List Char} (h : 'n' ∉ s) :
    replaceAll n2dPat (n2dPat ++ s) = s := by
  obtain ⟨k, hk⟩ : ∃ k, (n2dPat ++ s).length = k + 1 :=
    ⟨s.length + 3, by simp [n2dPat]⟩
  show replaceAllGo n2dPat ((n2dPat ++ s).length) (n2dPat ++ s) = s
  rw [hk]
  show replaceAllGo n2dPat (k + 1) ('n' :: '2' :: 'd' :: '-' :: s) = s
  rw [replaceAllGo, if_pos]
  · show replaceAllGo n2dPat k s = s
    exact replaceAllGo_not_mem k h
  · refine ⟨by simp [n2dPat], ?_⟩
    simp [n2dPat, List.isPrefixOf]

theorem splitFirst_append {a : List Char} (b : List Char) (h : '-' ∉ a) :
    splitFirst '-' (a ++ '-' :: b) = some (a, b) := by
  induction a with
  | nil => simp [splitFirst]
  | cons c cs ih =>
      have hc : c ≠ '-' := by
        intro e
        exact h (by simp [e])
      have hcs : '-' ∉ cs := fun m => h (List.mem_cons_of_mem _ m)
      show splitFirst '-' (c :: (cs ++ '-' :: b)) = some (c :: cs, b)
      rw [splitFirst, if_neg hc, ih hcs]

theorem pySplitLimit_two {c m : List Char} (hc : '-' ∉ c) :
    pySplitLimit '-' 2 (customChars ++ '-' :: (c ++ '-' :: m)) = [customChars, c, m] := by
  have h0 : '-' ∉ customChars := by decide
  show (match splitFirst '-' (customChars ++ '-' :: (c ++ '-' :: m)) with
      | none => [customChars ++ '-' :: (c ++ '-' :: m)]
      | some (a, b) => a :: pySplitLimit '-' 1 b) = [customChars, c, m]
  rw [splitFirst_append _ h0]
  show customChars ::
      (match splitFirst '-' (c ++ '-' :: m) with
      | none => [c ++ '-' :: m]
      | some (a, b) => a :: pySplitLimit '-' 0 b) = [customChars, c, m]
  rw [splitFirst_append _ hc]
  rfl

/-- C1 (amended): a machine type built as `custom-<c>-<m>` or
`n2d-custom-<c>-<m>` from an `int(...)`-parseable `c` and a
`float(...)`-parseable `m` parses to `(c, m / 1024)`; but the `n2d-` marker
is removed wherever it occurs (Python `str.replace` removes every
occurrence, not only a prefix), so the failure guarantee holds not for
every other surface shape, but exactly for the strings whose `-`-split
(limit 3) after removing all `n2d-` occurrences does not have the shape
`custom` / int / float; all such strings fail with `TNUCostException`. -/
theorem c1_parse_machine_type_amended :
    (∀ (c m : List Char) (cv : Int) (mv : ℚ),
        pyIntChars c = some cv → '-' ∉ c → 'n' ∉ c →
        pyFloatChars m = some mv → 'n' ∉ m →
        _parse_machine_type (String.mk (customChars ++ '-' :: (c ++ '-' :: m))) =
          .ok (cv, mv / 1024) ∧
        _parse_machine_type (String.mk (n2dPat ++ (customChars ++ '-' :: (c ++ '-' :: m)))) =
          .ok (cv, mv / 1024)) ∧
    (∀ s : String,
        (∀ p0 p1 p2, pySplitLimit '-' 2 (replaceAll n2dPat s.data) = [p0, p1, p2] →
          p0 = customChars → (pyIntChars p1).isSome → (pyFloatChars p2).isSome → False) →
        ∃ msg, _parse_machine_type s = .error (.tnuCost msg)) := by
  constructor
  · intro c m cv mv hci hcd hcn hmf hmn
    have hmem : 'n' ∉ customChars ++ '-' :: (c ++ '-' :: m) := by
      intro hm
      rcases List.mem_append.mp hm with h1 | h2
      · revert h1; decide
      · rcases List.mem_cons.mp h2 with h3 | h4
        · exact absurd h3 (by decide)
        · rcases List.mem_append.mp h4 with h5 | h6
          · exact hcn h5
          · rcases List.mem_cons.mp h6 with h7 | h8
            · exact absurd h7 (by decide)
            · exact hmn h8
    constructor
    · unfold _parse_machine_type
      simp only [replaceAll_not_mem hmem, pySplitLimit_two hcd, hci, hmf]
      simp
    · unfold _parse_machine_type
      simp only [replaceAll_strip hmem, pySplitLimit_two hcd, hci, hmf]
      simp
  · intro s hbad
    unfold _parse_machine_type
    dsimp only
    split
    · rename_i p0 p1 p2 hparts
      split
      · rename_i hcustom
        rcases hi : pyIntChars p1 with _ | cv
        · exact ⟨_, rfl⟩
        · rcases hf : pyFloatChars p2 with _ | mv
          · exact ⟨_, rfl⟩
          · exact absurd (hbad p0 p1 p2 hparts hcustom (by rw [hi]; rfl) (by rw [hf]; rfl))
              (by simp)
      · exact ⟨_, rfl⟩
    · exact ⟨_, rfl⟩

/-- C1 counterexample: the string `custom-n2d-4-1024` is of neither of the
two shapes the claim allows (after stripping a prefix `n2d-`, which it does
not have, its second dash-field `n2d` is not an integer), yet parsing
succeeds, because the code removes the `n2d-` occurring in the middle. -/
theorem c1_counterexample :
    _parse_machine_type "custom-n2d-4-1024" = .ok (4, 1) := by rfl

/-- C1 witness: both canonical shapes parse to `(c, m / 1024)`. -/
theorem c1_witness :
    _parse_machine_type (String.mk (customChars ++ '-' :: (['4'] ++ '-' :: ['1', '5', '3', '6', '0']))) =
      .ok (4, (15360 : ℚ) / 1024) ∧
    _parse_machine_type (String.mk (n2dPat ++ (customChars ++ '-' :: (['4'] ++ '-' :: ['1', '5', '3', '6', '0'])))) =
      .ok (4, (15360 : ℚ) / 1024) :=
  c1_parse_machine_type_amended.1 ['4'] ['1', '5', '3', '6', '0'] 4 15360
    (by rfl) (by decide) (by decide) (by rfl) (by decide)

/-! Helper lemmas about the `Except` monad chain of `attemptBody`. -/

theorem py_bind_ok {α β : Type} (a : α) (f : α → Except PyError β) :
    (Except.ok a >>= f : Except PyError β) = f a := rfl

theorem py_bind_error {α β : Type} (e : PyError) (f : α → Except PyError β) :
    (Except.error e >>= f : Except PyError β) = Except.error e := rfl

theorem py_pure_eq_ok {α : Type} (a : α) : (pure a : Except PyError α) = Except.ok a := rfl

/-- Full successful run of the non-cached branch of `attemptBody`: with
every metadata read and conversion given, the produced record is spelled
out componentwise. -/
theorem attemptBody_noncached (C : CostModel) (name : String) (m : Meta)
    (tn : List Char) (hv pv bs cpv : Meta) (pi : Int) (mts ss es ds : String)
    (cp : Int) (mem : ℚ) (t1 t2 : ℚ) (dsz : ℚ)
    (htn : (pySplit '.' name.data).get? 1 = some tn)
    (hhit : js_get "callCaching.hit" m (some (Meta.val (JsVal.num 0))) = .ok hv)
    (hhv : pyIntOf hv = .ok 0)
    (hmt : js_get "jes.machineType" m none = .ok (Meta.val (JsVal.str mts)))
    (hparse : _parse_machine_type mts = .ok (cp, mem))
    (hst : js_get "start" m none = .ok (Meta.val (JsVal.str ss)))
    (hsp : parseStrptime ss.data = some t1)
    (hen : js_get "end" m none = .ok (Meta.val (JsVal.str es)))
    (hep : parseStrptime es.data = some t2)
    (hpre : js_get "runtimeAttributes.preemptible" m none = .ok pv)
    (hpv : pyIntOf pv = .ok pi)
    (hbs : js_get "backendStatus" m none = .ok bs)
    (hdk : js_get "runtimeAttributes.disks" m (some (Meta.val (JsVal.str ""))) =
      .ok (Meta.val (JsVal.str ds)))
    (hdsz : diskSizeGb ds.data = .ok dsz)
    (hcp : js_get "runtimeAttributes.cpuPlatform" m (some (Meta.val (JsVal.str ""))) =
      .ok cpv) :
    attemptBody C name m = .ok
      { task_name := String.mk tn
        cost :=
          (if metaEqStr cpv "Intel Cascade Lake" ∨ metaEqStr cpv "AMD Rome" then
            C.customN2 cp mem (t2 - t1) (pi != 0)
          else
            C.customN1 cp mem (t2 - t1) (pi != 0)) +
          (if localSuffix.isSuffixOf ds.data then C.localSSDDisk dsz (t2 - t1)
           else C.persistentDisk dsz (t2 - t1))
        number_of_cpus := cp
        memory := mem
        disk := dsz
        duration := t2 - t1
        call_cached := false
        preempted :=
          if (pi != 0) = true then Preempted.flag (metaEqStr bs "Preempted")
          else Preempted.na
        machine_type := Meta.val (JsVal.str mts) } := by
  unfold attemptBody
  rw [htn]
  simp only [py_bind_ok, hhit, hhv, hmt, hparse, hst, hsp, hen, hep, hpre, hpv, hbs,
    hdk, hdsz, hcp, py_pure_eq_ok]
  simp

/-- C2: for every call attempt that is not a sub-workflow reference and
whose cache-hit indicator parses to a nonzero integer, the emitted record
has cost 0.0, 0 cpus, memory 0.0, duration 0.0, disk 0.0, preempted `"NA"`
and machine_type `"NA"`, whatever other fields the attempt metadata does or
does not contain (the metadata `m` is arbitrary beyond the cache-hit
hypothesis). -/
theorem c2_cached_attempt (C : CostModel) (workflow_id call_name : String) (m : Meta)
    (tn : List Char) (hv : Meta) (i : Int)
    (hsub : m.hasKey "subWorkflowId" = false)
    (htn : (pySplit '.' call_name.data).get? 1 = some tn)
    (hhit : js_get "callCaching.hit" m (some (Meta.val (JsVal.num 0))) = .ok hv)
    (hhv : pyIntOf hv = .ok i) (hi : i ≠ 0) :
    attemptStep C workflow_id call_name m = .record
      { task_name := String.mk tn, cost := 0, number_of_cpus := 0, memory := 0,
        disk := 0, duration := 0, call_cached := true, preempted := Preempted.na,
        machine_type := Meta.val (JsVal.str "NA") } := by
  have hbody : attemptBody C call_name m = .ok
      { task_name := String.mk tn, cost := 0, number_of_cpus := 0, memory := 0,
        disk := 0, duration := 0, call_cached := true, preempted := Preempted.na,
        machine_type := Meta.val (JsVal.str "NA") } := by
    unfold attemptBody
    rw [htn]
    simp only [py_bind_ok, hhit, hhv, py_pure_eq_ok]
    simp [hi]
  simp [attemptStep, hsub, hbody]

/-- C2 witness: a concrete cached attempt carrying no other fields at all
still yields the all-zero record. -/
theorem c2_witness :
    attemptStep C0 "w" "wf.t" mCached = .record
      { task_name := "t", cost := 0, number_of_cpus := 0, memory := 0,
        disk := 0, duration := 0, call_cached := true, preempted := Preempted.na,
        machine_type := Meta.val (JsVal.str "NA") } :=
  c2_cached_attempt C0 "w" "wf.t" mCached ['t'] (Meta.val (JsVal.num 1)) 1
    (by rfl) (by rfl) (by rfl) (by rfl) (by decide)

/-- C8: for every non-cached call attempt whose preemptible flag parses to
a nonzero integer, the emitted record has preempted `True` exactly when the
backend-status field equals the string `Preempted`, and `False` for every
other backend-status value. -/
theorem c8_preempted_of_preemptible (C : CostModel) (workflow_id call_name : String)
    (m : Meta) (tn : List Char) (hv pv bs cpv : Meta) (pi : Int)
    (mts ss es ds : String) (cp : Int) (mem : ℚ) (t1 t2 : ℚ) (dsz : ℚ)
    (hsub : m.hasKey "subWorkflowId" = false)
    (htn : (pySplit '.' call_name.data).get? 1 = some tn)
    (hhit : js_get "callCaching.hit" m (some (Meta.val (JsVal.num 0))) = .ok hv)
    (hhv : pyIntOf hv = .ok 0)
    (hmt : js_get "jes.machineType" m none = .ok (Meta.val (JsVal.str mts)))
    (hparse : _parse_machine_type mts = .ok (cp, mem))
    (hst : js_get "start" m none = .ok (Meta.val (JsVal.str ss)))
    (hsp : parseStrptime ss.data = some t1)
    (hen : js_get "end" m none = .ok (Meta.val (JsVal.str es)))
    (hep : parseStrptime es.data = some t2)
    (hpre : js_get "runtimeAttributes.preemptible" m none = .ok pv)
    (hpv : pyIntOf pv = .ok pi) (hpi : pi ≠ 0)
    (hbs : js_get "backendStatus" m none = .ok bs)
    (hdk : js_get "runtimeAttributes.disks" m (some (Meta.val (JsVal.str ""))) =
      .ok (Meta.val (JsVal.str ds)))
    (hdsz : diskSizeGb ds.data = .ok dsz)
    (hcp : js_get "runtimeAttributes.cpuPlatform" m (some (Meta.val (JsVal.str ""))) =
      .ok cpv) :
    attemptStep C workflow_id call_name m = .record
      { task_name := String.mk tn
        cost :=
          (if metaEqStr cpv "Intel Cascade Lake" ∨ metaEqStr cpv "AMD Rome" then
            C.customN2 cp mem (t2 - t1) (pi != 0)
          else
            C.customN1 cp mem (t2 - t1) (pi != 0)) +
          (if localSuffix.isSuffixOf ds.data then C.localSSDDisk dsz (t2 - t1)
           else C.persistentDisk dsz (t2 - t1))
        number_of_cpus := cp
        memory := mem
        disk := dsz
        duration := t2 - t1
        call_cached := false
        preempted := Preempted.flag (metaEqStr bs "Preempted")
        machine_type := Meta.val (JsVal.str mts) } ∧
      (metaEqStr bs "Preempted" = true ↔ bs = Meta.val (JsVal.str "Preempted")) := by
  have hb := attemptBody_noncached C call_name m tn hv pv bs cpv pi mts ss es ds cp mem
    t1 t2 dsz htn hhit hhv hmt hparse hst hsp hen hep hpre hpv hbs hdk hdsz hcp
  constructor
  · simp only [attemptStep, hsub, hb]
    simp [hpi]
  · cases bs with
    | val v =>
        cases v with
        | str t => simp [metaEqStr]
        | num n => simp [metaEqStr]
        | bool b => simp [metaEqStr]
    | obj fs => simp [metaEqStr]
    | arr es => simp [metaEqStr]

/-- C8 witness: a concrete preemptible attempt with backend status
`Preempted` yields a record flagged as preempted. -/
theorem c8_witness :
    attemptStep C0 "w" "wf.t" mPreempted = .record
      { task_name := "t", cost := C0.customN1 1 1 0 true + C0.persistentDisk 50 0,
        number_of_cpus := 1, memory := 1, disk := 50, duration := 0,
        call_cached := false, preempted := Preempted.flag true,
        machine_type := Meta.val (JsVal.str "custom-1-1024") } :=
  (c8_preempted_of_preemptible C0 "w" "wf.t" mPreempted ['t']
    (Meta.val (JsVal.num 0)) (Meta.val (JsVal.str "1"))
    (Meta.val (JsVal.str "Preempted")) (Meta.val (JsVal.str "")) 1
    "custom-1-1024" ts0 ts0 "local-disk 50 SSD" 1 1 1622548800 1622548800 50
    (by rfl) (by rfl) (by rfl) (by rfl) (by rfl) (by rfl) (by rfl) (by rfl)
    (by rfl) (by rfl) (by rfl) (by rfl) (by decide) (by rfl) (by rfl) (by rfl)
    (by rfl)).1

/-- C4 counterexample: a concrete non-cached attempt with preemptible flag
0 and every other required field present, but no backend-status field, does
not yield a record: the attempt is skipped with a warning, because line 87
reads `backendStatus` unconditionally, before the preemptible test. -/
theorem c4_counterexample :
    attemptStep C0 "w" "wf.t" mNoBackend =
      .warn (costWarning "w" (PyError.keyError "backendStatus")) := by rfl

/-- C4 (amended): for a non-cached call attempt whose preemptible flag
parses to zero, any record that is emitted has preempted `"NA"` regardless
of the backend-status value; but the backend-status field is required even
then (it is read unconditionally): an otherwise well-formed non-preemptible
attempt lacking it is skipped with a warning instead of yielding a
record. -/
theorem c4_nonpreemptible_amended :
    (∀ (C : CostModel) (workflow_id call_name : String) (m : Meta)
      (tn : List Char) (hv pv bs cpv : Meta) (mts ss es ds : String)
      (cp : Int) (mem : ℚ) (t1 t2 : ℚ) (dsz : ℚ),
      m.hasKey "subWorkflowId" = false →
      (pySplit '.' call_name.data).get? 1 = some tn →
      js_get "callCaching.hit" m (some (Meta.val (JsVal.num 0))) = .ok hv →
      pyIntOf hv = .ok 0 →
      js_get "jes.machineType" m none = .ok (Meta.val (JsVal.str mts)) →
      _parse_machine_type mts = .ok (cp, mem) →
      js_get "start" m none = .ok (Meta.val (JsVal.str ss)) →
      parseStrptime ss.data = some t1 →
      js_get "end" m none = .ok (Meta.val (JsVal.str es)) →
      parseStrptime es.data = some t2 →
      js_get "runtimeAttributes.preemptible" m none = .ok pv →
      pyIntOf pv = .ok 0 →
      js_get "backendStatus" m none = .ok bs →
      js_get "runtimeAttributes.disks" m (some (Meta.val (JsVal.str ""))) =
        .ok (Meta.val (JsVal.str ds)) →
      diskSizeGb ds.data = .ok dsz →
      js_get "runtimeAttributes.cpuPlatform" m (some (Meta.val (JsVal.str ""))) =
        .ok cpv →
      ∃ r, attemptStep C workflow_id call_name m = .record r ∧
        r.preempted = Preempted.na) ∧
    (∀ (C : CostModel) (workflow_id call_name : String) (m : Meta)
      (tn : List Char) (hv pv : Meta) (mts ss es : String)
      (cp : Int) (mem : ℚ) (t1 t2 : ℚ),
      m.hasKey "subWorkflowId" = false →
      (pySplit '.' call_name.data).get? 1 = some tn →
      js_get "callCaching.hit" m (some (Meta.val (JsVal.num 0))) = .ok hv →
      pyIntOf hv = .ok 0 →
      js_get "jes.machineType" m none = .ok (Meta.val (JsVal.str mts)) →
      _parse_machine_type mts = .ok (cp, mem) →
      js_get "start" m none = .ok (Meta.val (JsVal.str ss)) →
      parseStrptime ss.data = some t1 →
      js_get "end" m none = .ok (Meta.val (JsVal.str es)) →
      parseStrptime es.data = some t2 →
      js_get "runtimeAttributes.preemptible" m none = .ok pv →
      pyIntOf pv = .ok 0 →
      js_get "backendStatus" m none = .error (PyError.keyError "backendStatus") →
      attemptStep C workflow_id call_name m =
        .warn (costWarning workflow_id (PyError.keyError "backendStatus"))) := by
  constructor
  · intro C workflow_id call_name m tn hv pv bs cpv mts ss es ds cp mem t1 t2 dsz
      hsub htn hhit hhv hmt hparse hst hsp hen hep hpre hpv hbs hdk hdsz hcp
    have hb := attemptBody_noncached C call_name m tn hv pv bs cpv 0 mts ss es ds cp mem
      t1 t2 dsz htn hhit hhv hmt hparse hst hsp hen hep hpre hpv hbs hdk hdsz hcp
    refine ⟨⟨String.mk tn,
      (if metaEqStr cpv "Intel Cascade Lake" ∨ metaEqStr cpv "AMD Rome" then
        C.customN2 cp mem (t2 - t1) ((0 : Int) != 0)
      else C.customN1 cp mem (t2 - t1) ((0 : Int) != 0)) +
      (if localSuffix.isSuffixOf ds.data then C.localSSDDisk dsz (t2 - t1)
       else C.persistentDisk dsz (t2 - t1)),
      cp, mem, dsz, t2 - t1, false,
      (if ((0 : Int) != 0) = true then Preempted.flag (metaEqStr bs "Preempted")
       else Preempted.na),
      Meta.val (JsVal.str mts)⟩, ?_, ?_⟩
    · simp [attemptStep, hsub, hb]
    · simp
  · intro C workflow_id call_name m tn hv pv mts ss es cp mem t1 t2
      hsub htn hhit hhv hmt hparse hst hsp hen hep hpre hpv hbs
    have hb : attemptBody C call_name m = .error (PyError.keyError "backendStatus") := by
      unfold attemptBody
      rw [htn]
      simp only [py_bind_ok, hhit, hhv, hmt, hparse, hst, hsp, hen, hep, hpre, hpv,
        hbs, py_bind_error]
      simp
    simp [attemptStep, hsub, hb, PyError.caught]

/-- C4 witness: the non-preemptible fixture with backend status `Success`
yields a record with preempted `"NA"`, and the same fixture without the
backend-status field is skipped with a warning. -/
theorem c4_witness :
    (∃ r, attemptStep C0 "w" "wf.t" mSSD = .record r ∧ r.preempted = Preempted.na) ∧
    attemptStep C0 "w" "wf.t" mNoBackend =
      .warn (costWarning "w" (PyError.keyError "backendStatus")) :=
  ⟨c4_nonpreemptible_amended.1 C0 "w" "wf.t" mSSD ['t']
    (Meta.val (JsVal.num 0)) (Meta.val (JsVal.str "0"))
    (Meta.val (JsVal.str "Success")) (Meta.val (JsVal.str ""))
    "custom-1-1024" ts0 ts0 "local-disk 50 SSD" 1 1 1622548800 1622548800 50
    (by rfl) (by rfl) (by rfl) (by rfl) (by rfl) (by rfl) (by rfl) (by rfl)
    (by rfl) (by rfl) (by rfl) (by rfl) (by rfl) (by rfl) (by rfl) (by rfl),
   c4_nonpreemptible_amended.2 C0 "w" "wf.t" mNoBackend ['t']
    (Meta.val (JsVal.num 0)) (Meta.val (JsVal.str "0"))
    "custom-1-1024" ts0 ts0 1 1 1622548800 1622548800
    (by rfl) (by rfl) (by rfl) (by rfl) (by rfl) (by rfl) (by rfl) (by rfl)
    (by rfl) (by rfl) (by rfl) (by rfl) (by rfl)⟩

/-- C7: disk descriptor handling.  End to end (for any cost model, so that
the choice of pricing collaborator is observable): descriptor
`local-disk 50 SSD` yields disk 50.0 priced with the persistent-disk
collaborator; `local-disk 50 LOCAL` yields disk 50.0 priced with the
local-SSD collaborator; a missing descriptor yields disk 1.0 priced with
the persistent-disk collaborator.  In general a descriptor starting with
`local-disk` contributes the middle of its three whitespace tokens as the
disk size, and any other descriptor contributes the 1.0 GB default. -/
theorem c7_disk_descriptor :
    (∀ C : CostModel, attemptStep C "w" "wf.t" mSSD = .record
      { task_name := "t", cost := C.customN1 1 1 0 false + C.persistentDisk 50 0,
        number_of_cpus := 1, memory := 1, disk := 50, duration := 0,
        call_cached := false, preempted := Preempted.na,
        machine_type := Meta.val (JsVal.str "custom-1-1024") }) ∧
    (∀ C : CostModel, attemptStep C "w" "wf.t" mLOCAL = .record
      { task_name := "t", cost := C.customN1 1 1 0 false + C.localSSDDisk 50 0,
        number_of_cpus := 1, memory := 1, disk := 50, duration := 0,
        call_cached := false, preempted := Preempted.na,
        machine_type := Meta.val (JsVal.str "custom-1-1024") }) ∧
    (∀ C : CostModel, attemptStep C "w" "wf.t" mNoDisk = .record
      { task_name := "t", cost := C.customN1 1 1 0 false + C.persistentDisk 1 0,
        number_of_cpus := 1, memory := 1, disk := 1, duration := 0,
        call_cached := false, preempted := Preempted.na,
        machine_type := Meta.val (JsVal.str "custom-1-1024") }) ∧
    (∀ (d w1 w2 w3 : List Char) (q : ℚ),
      local_disk_chars.isPrefixOf d = true → pyWsSplit d = [w1, w2, w3] →
      pyFloatChars w2 = some q → diskSizeGb d = .ok q) ∧
    (∀ d : List Char, local_disk_chars.isPrefixOf d = false → diskSizeGb d = .ok 1) := by
  refine ⟨fun C => rfl, fun C => rfl, fun C => rfl, ?_, ?_⟩
  · intro d w1 w2 w3 q h1 h2 h3
    simp [diskSizeGb, h1, h2, h3]
  · intro d h
    simp [diskSizeGb, h]

/-- C7 witness: the general token rule evaluated on the concrete
descriptors, and the persistent-disk pricing case end to end. -/
theorem c7_witness :
    attemptStep C0 "w" "wf.t" mSSD = .record
      { task_name := "t", cost := C0.customN1 1 1 0 false + C0.persistentDisk 50 0,
        number_of_cpus := 1, memory := 1, disk := 50, duration := 0,
        call_cached := false, preempted := Preempted.na,
        machine_type := Meta.val (JsVal.str "custom-1-1024") } ∧
    diskSizeGb ("local-disk 50 LOCAL".data) = .ok 50 ∧
    diskSizeGb ([] : List Char) = .ok 1 :=
  ⟨c7_disk_descriptor.1 C0,
   c7_disk_descriptor.2.2.2.1 ("local-disk 50 LOCAL".data)
     "local-disk".data "50".data "LOCAL".data 50 (by rfl) (by rfl) (by rfl),
   c7_disk_descriptor.2.2.2.2 [] (by rfl)⟩

theorem pySplit_no_sep {s : List Char} (h : '.' ∉ s) : pySplit '.' s = [s] := by
  induction s with
  | nil => rfl
  | cons c cs ih =>
      have hc : c ≠ '.' := by
        intro e
        exact h (by simp [e])
      have hcs : '.' ∉ cs := fun m => h (List.mem_cons_of_mem _ m)
      simp only [pySplit, if_neg hc, ih hcs]

/-- C3: a call attempt whose processing raises one of the two caught error
kinds (a missing-required-field `KeyError` from `js_get`, or the
machine-type `TNUCostException`) is logged as a warning naming the workflow
and the message, contributes no record, and the following well-formed
attempt of the same call still produces its record; in particular an
attempt missing the required `start` field raises exactly the caught
`KeyError` for `start`. -/
theorem c3_caught_error_skips_attempt :
    (∀ (C : CostModel) (workflow_id call_name : String) (m1 m2 : Meta)
      (e : PyError) (r : CostRecord),
      Meta.hasKey m1 "subWorkflowId" = false →
      attemptBody C call_name m1 = .error e →
      PyError.caught e = true →
      attemptStep C workflow_id call_name m2 = .record r →
      estimate_workflow_cost C workflow_id
        (Meta.obj [("calls", Meta.obj [(call_name, Meta.arr [m1, m2])])]) =
        { records := [r], warnings := [costWarning workflow_id e], aborted := none }) ∧
    (∀ (C : CostModel) (call_name : String) (m : Meta) (tn : List Char)
      (hv : Meta) (mts : String) (cp : Int) (mem : ℚ),
      (pySplit '.' call_name.data).get? 1 = some tn →
      js_get "callCaching.hit" m (some (Meta.val (JsVal.num 0))) = .ok hv →
      pyIntOf hv = .ok 0 →
      js_get "jes.machineType" m none = .ok (Meta.val (JsVal.str mts)) →
      _parse_machine_type mts = .ok (cp, mem) →
      js_get "start" m none = .error (PyError.keyError "start") →
      attemptBody C call_name m = .error (PyError.keyError "start")) := by
  constructor
  · intro C workflow_id call_name m1 m2 e r hsub hbody hcaught hstep2
    have h1 : attemptStep C workflow_id call_name m1 = .warn (costWarning workflow_id e) := by
      simp [attemptStep, hsub, hbody, hcaught]
    simp [estimate_workflow_cost, estimateCalls, callSteps, assocFind, runSteps, h1, hstep2]
  · intro C call_name m tn hv mts cp mem htn hhit hhv hmt hparse hst
    unfold attemptBody
    rw [htn]
    simp only [py_bind_ok, hhit, hhv, hmt, hparse, hst, py_bind_error]
    simp

/-- C3 witness: an attempt missing `start` followed by a well-formed
attempt yields exactly the second record plus one warning. -/
theorem c3_witness :
    estimate_workflow_cost C0 "w"
      (Meta.obj [("calls", Meta.obj [("wf.t", Meta.arr [mNoStart, mSSD])])]) =
      { records := [{ task_name := "t",
                      cost := C0.customN1 1 1 0 false + C0.persistentDisk 50 0,
                      number_of_cpus := 1, memory := 1, disk := 50, duration := 0,
                      call_cached := false, preempted := Preempted.na,
                      machine_type := Meta.val (JsVal.str "custom-1-1024") }],
        warnings := [costWarning "w" (PyError.keyError "start")],
        aborted := none } :=
  c3_caught_error_skips_attempt.1 C0 "w" "wf.t" mNoStart mSSD
    (PyError.keyError "start") _ (by rfl) (by rfl) (by rfl) (by rfl)

/-- C6 counterexample: one malformed attempt can terminate the whole output
sequence: `mBadStart` carries an unparseable `start` timestamp, whose
`ValueError` is not among the caught kinds, so the run of a workflow with
attempts `[mBadStart, mSSD]` aborts with no records at all even though the
second attempt alone would have produced one. -/
theorem c6_counterexample :
    attemptStep C0 "w" "wf.t" mSSD = .record
      { task_name := "t", cost := C0.customN1 1 1 0 false + C0.persistentDisk 50 0,
        number_of_cpus := 1, memory := 1, disk := 50, duration := 0,
        call_cached := false, preempted := Preempted.na,
        machine_type := Meta.val (JsVal.str "custom-1-1024") } ∧
    estimate_workflow_cost C0 "w"
      (Meta.obj [("calls", Meta.obj [("wf.t", Meta.arr [mBadStart, mSSD])])]) =
      { records := [], warnings := [], aborted := some PyError.valueError } :=
  ⟨rfl, rfl⟩

/-- C6 (amended): a bad attempt never terminates the sequence only when its
failure is one of the two caught kinds (missing-field `KeyError` or
machine-type `TNUCostException`): such an attempt is skipped with a warning
and the remaining attempts are processed unchanged.  An attempt failing
with any other exception kind terminates the whole sequence at that
point. -/
theorem c6_abort_amended :
    (∀ (C : CostModel) (workflow_id call_name : String) (m : Meta)
      (ms : List Meta) (rest : List (String × Meta)) (e : PyError),
      Meta.hasKey m "subWorkflowId" = false →
      attemptBody C call_name m = .error e →
      PyError.caught e = true →
      estimateCalls C workflow_id ((call_name, Meta.arr (m :: ms)) :: rest) =
        { records := (estimateCalls C workflow_id ((call_name, Meta.arr ms) :: rest)).records,
          warnings := costWarning workflow_id e ::
            (estimateCalls C workflow_id ((call_name, Meta.arr ms) :: rest)).warnings,
          aborted := (estimateCalls C workflow_id ((call_name, Meta.arr ms) :: rest)).aborted }) ∧
    (∀ (C : CostModel) (workflow_id call_name : String) (m : Meta)
      (ms : List Meta) (rest : List (String × Meta)) (e : PyError),
      Meta.hasKey m "subWorkflowId" = false →
      attemptBody C call_name m = .error e →
      PyError.caught e = false →
      estimateCalls C workflow_id ((call_name, Meta.arr (m :: ms)) :: rest) =
        { records := [], warnings := [], aborted := some e }) := by
  constructor
  · intro C workflow_id call_name m ms rest e hsub hbody hcaught
    have h1 : attemptStep C workflow_id call_name m = .warn (costWarning workflow_id e) := by
      simp [attemptStep, hsub, hbody, hcaught]
    simp [estimateCalls, callSteps, runSteps, h1, List.flatMap]
  · intro C workflow_id call_name m ms rest e hsub hbody hcaught
    have h1 : attemptStep C workflow_id call_name m = .fatal e := by
      simp [attemptStep, hsub, hbody, hcaught]
    simp [estimateCalls, callSteps, runSteps, h1, List.flatMap]

/-- C6 witness: the caught-kind case applied to the missing-`start`
fixture, and the uncaught case applied to the bad-timestamp fixture. -/
theorem c6_witness :
    estimateCalls C0 "w" [("wf.t", Meta.arr [mNoStart, mSSD])] =
      { records := (estimateCalls C0 "w" [("wf.t", Meta.arr [mSSD])]).records,
        warnings := costWarning "w" (PyError.keyError "start") ::
          (estimateCalls C0 "w" [("wf.t", Meta.arr [mSSD])]).warnings,
        aborted := (estimateCalls C0 "w" [("wf.t", Meta.arr [mSSD])]).aborted } ∧
    estimateCalls C0 "w" [("wf.t", Meta.arr [mBadStart, mSSD])] =
      { records := [], warnings := [], aborted := some PyError.valueError } :=
  ⟨c6_abort_amended.1 C0 "w" "wf.t" mNoStart [mSSD] []
    (PyError.keyError "start") (by rfl) (by rfl) (by rfl),
   c6_abort_amended.2 C0 "w" "wf.t" mBadStart [mSSD] []
    PyError.valueError (by rfl) (by rfl) (by rfl)⟩

/-- C10: a call attempt that is not a sub-workflow reference, under a call
name with no dot, raises `IndexError` at the task-name derivation; that
exception is not among the caught kinds, so no record is emitted and the
whole output sequence terminates there, regardless of how many attempts
would have followed. -/
theorem c10_dotless_call_name (C : CostModel) (workflow_id call_name : String)
    (m : Meta) (ms : List Meta) (rest : List (String × Meta))
    (hsub : Meta.hasKey m "subWorkflowId" = false)
    (hdot : '.' ∉ call_name.data) :
    attemptBody C call_name m = .error PyError.indexError ∧
    PyError.caught PyError.indexError = false ∧
    estimateCalls C workflow_id ((call_name, Meta.arr (m :: ms)) :: rest) =
      { records := [], warnings := [], aborted := some PyError.indexError } := by
  have hsplit : (pySplit '.' call_name.data).get? 1 = none := by
    rw [pySplit_no_sep hdot]
    rfl
  have hbody : attemptBody C call_name m = .error PyError.indexError := by
    unfold attemptBody
    rw [hsplit]
    simp [py_bind_error]
  refine ⟨hbody, rfl, ?_⟩
  have h1 : attemptStep C workflow_id call_name m = .fatal PyError.indexError := by
    simp [attemptStep, hsub, hbody, PyError.caught]
  simp [estimateCalls, callSteps, runSteps, h1]

/-- C10 witness: call name `task` (no dot) aborts a two-attempt workflow
with `IndexError` before any record is produced. -/
theorem c10_witness :
    attemptBody C0 "task" mCached = .error PyError.indexError ∧
    PyError.caught PyError.indexError = false ∧
    estimateCalls C0 "w" [("task", Meta.arr [mCached, mSSD])] =
      { records := [], warnings := [], aborted := some PyError.indexError } :=
  c10_dotless_call_name C0 "w" "task" mCached [mSSD] [] (by rfl) (by decide)

/-! Helper lemmas about the LRU cache model. -/

theorem cacheLookup_mem {κ ν : Type} [DecidableEq κ] :
    ∀ (l : List (κ × ν)) (key : κ) (v : ν), cacheLookup l key = some v → (key, v) ∈ l := by
  intro l key v
  induction l with
  | nil => simp [cacheLookup]
  | cons kv rest ih =>
      obtain ⟨k0, v0⟩ := kv
      simp only [cacheLookup]
      split
      · rename_i he
        intro h
        obtain rfl := Option.some.inj h
        simp [he]
      · intro h
        exact List.mem_cons_of_mem _ (ih h)

theorem cacheLookup_none {κ ν : Type} [DecidableEq κ] :
    ∀ (l : List (κ × ν)) (key : κ),
      cacheLookup l key = none ↔ key ∉ l.map Prod.fst := by
  intro l key
  induction l with
  | nil => simp [cacheLookup]
  | cons kv rest ih =>
      obtain ⟨k0, v0⟩ := kv
      simp only [cacheLookup, List.map_cons, List.mem_cons]
      split
      · rename_i he
        subst he
        simp
      · rename_i he
        rw [ih]
        constructor
        · intro h hmem
          rcases hmem with h1 | h1
          · exact he h1.symm
          · exact h h1
        · intro h h1
          exact h (Or.inr h1)

theorem removeKey_mem {κ ν : Type} [DecidableEq κ] :
    ∀ (l : List (κ × ν)) (key : κ) (kv : κ × ν),
      kv ∈ removeKey l key ↔ (kv ∈ l ∧ kv.1 ≠ key) := by
  intro l key kv
  induction l with
  | nil => simp [removeKey]
  | cons kv0 rest ih =>
      obtain ⟨k0, v0⟩ := kv0
      simp only [removeKey]
      split
      · rename_i he
        subst he
        rw [ih]
        simp only [List.mem_cons]
        constructor
        · exact fun h => ⟨Or.inr h.1, h.2⟩
        · rintro ⟨h | h, hne⟩
          · exact absurd (by rw [h]) hne
          · exact ⟨h, hne⟩
      · rename_i he
        simp only [List.mem_cons, ih]
        constructor
        · rintro (h | h)
          · subst h
            exact ⟨Or.inl rfl, he⟩
          · exact ⟨Or.inr h.1, h.2⟩
        · rintro ⟨h | h, hne⟩
          · exact Or.inl h
          · exact Or.inr ⟨h, hne⟩

theorem removeKey_mem_fst {κ ν : Type} [DecidableEq κ] (l : List (κ × ν)) (key : κ)
    (x : κ) : x ∈ (removeKey l key).map Prod.fst ↔
      (x ∈ l.map Prod.fst ∧ x ≠ key) := by
  simp only [List.mem_map]
  constructor
  · rintro ⟨kv, hm, rfl⟩
    rw [removeKey_mem] at hm
    exact ⟨⟨kv, hm.1, rfl⟩, hm.2⟩
  · rintro ⟨⟨kv, hm, rfl⟩, hne⟩
    exact ⟨kv, (removeKey_mem l key kv).mpr ⟨hm, hne⟩, rfl⟩

theorem removeKey_length_lt {κ ν : Type} [DecidableEq κ] :
    ∀ (l : List (κ × ν)) (key : κ), key ∈ l.map Prod.fst →
      (removeKey l key).length < l.length := by
  intro l key
  induction l with
  | nil => simp
  | cons kv0 rest ih =>
      obtain ⟨k0, v0⟩ := kv0
      simp only [removeKey, List.map_cons, List.mem_cons]
      intro h
      split
      · rename_i he
        have hle : (removeKey rest key).length ≤ rest.length := by
          clear h he ih
          induction rest with
          | nil => simp [removeKey]
          | cons kv1 rest1 ih1 =>
              obtain ⟨k1, v1⟩ := kv1
              simp only [removeKey]
              split
              · exact Nat.le_succ_of_le ih1
              · simpa using ih1
        simpa using Nat.lt_succ_of_le hle
      · rename_i he
        rcases h with h | h
        · exact absurd h.symm he
        · simpa using Nat.succ_lt_succ (ih h)

theorem newDistinct_congr {κ : Type} [DecidableEq κ] :
    ∀ (ks : List κ) (s1 s2 : List κ), (∀ x, x ∈ s1 ↔ x ∈ s2) →
      newDistinct s1 ks = newDistinct s2 ks := by
  intro ks
  induction ks with
  | nil => intro s1 s2 _; rfl
  | cons k rest ih =>
      intro s1 s2 hiff
      simp only [newDistinct]
      by_cases hk : k ∈ s1
      · rw [if_pos hk, if_pos ((hiff k).mp hk), ih s1 s2 hiff]
      · rw [if_neg hk, if_neg (fun h => hk ((hiff k).mpr h))]
        have : ∀ x, x ∈ k :: s1 ↔ x ∈ k :: s2 := by
          intro x
          simp [hiff x]
        rw [ih (k :: s1) (k :: s2) this]

theorem countKey_append {κ : Type} [DecidableEq κ] (k : κ) :
    ∀ (l1 l2 : List κ), countKey k (l1 ++ l2) = countKey k l1 + countKey k l2 := by
  intro l1 l2
  induction l1 with
  | nil => simp [countKey]
  | cons x xs ih =>
      simp only [List.cons_append]
      show (if x = k then 1 else 0) + countKey k (xs ++ l2) =
        ((if x = k then 1 else 0) + countKey k xs) + countKey k l2
      rw [ih]
      omega

/-- Core memoization fact for `lruCall` with capacity `maxsize`: starting
from a consistent cache state, as long as the number of distinct keys ever
requested stays within the capacity, no eviction takes place, so every key
is fetched at most once (exactly once if requested and not already cached)
and the cache keeps storing exactly the fetched values. -/
theorem lruRun_memoizes {κ ν : Type} [DecidableEq κ] (maxsize : Nat) (fetch : κ → ν) :
    ∀ (ks : List κ) (st : LruState κ ν),
      (∀ x, x ∈ st.entries.map Prod.fst ↔ x ∈ st.fetchLog) →
      st.entries.length ≤ st.fetchLog.length →
      st.fetchLog.Nodup →
      (∀ kv ∈ st.entries, kv.2 = fetch kv.1) →
      st.fetchLog.length + newDistinct st.fetchLog ks ≤ maxsize →
      (∀ k, countKey k ((ks.foldl (fun s k2 => (lruCall maxsize fetch s k2).2) st).fetchLog) =
        countKey k st.fetchLog + (if k ∈ ks ∧ k ∉ st.fetchLog then 1 else 0)) ∧
      (∀ kv ∈ (ks.foldl (fun s k2 => (lruCall maxsize fetch s k2).2) st).entries,
        kv.2 = fetch kv.1) := by
  intro ks
  induction ks with
  | nil =>
      intro st hiff hlen hnd hval _
      exact ⟨fun k => by simp, fun kv hkv => hval kv hkv⟩
  | cons k0 rest ih =>
      intro st hiff hlen hnd hval hbound
      simp only [List.foldl_cons]
      rcases hk0 : cacheLookup st.entries k0 with _ | v
      · -- miss: k0 is fetched and appended to the log
        have hk0fst : k0 ∉ st.entries.map Prod.fst := (cacheLookup_none _ _).mp hk0
        have hk0log : k0 ∉ st.fetchLog := fun h => hk0fst ((hiff k0).mpr h)
        have hbound' : st.fetchLog.length + (1 + newDistinct (k0 :: st.fetchLog) rest) ≤
            maxsize := by
          have : newDistinct st.fetchLog (k0 :: rest) =
              1 + newDistinct (k0 :: st.fetchLog) rest := by
            simp [newDistinct, hk0log]
          omega
        have hsmall : st.entries.length + 1 ≤ maxsize := by
          omega
        have hstep : (lruCall maxsize fetch st k0).2 =
            ⟨(k0, fetch k0) :: st.entries, st.fetchLog ++ [k0]⟩ := by
          simp only [lruCall, hk0]
          have : ((k0, fetch k0) :: st.entries).length ≤ maxsize := by
            simpa using hsmall
          rw [List.take_of_length_le this]
        rw [hstep]
        have hres := ih ⟨(k0, fetch k0) :: st.entries, st.fetchLog ++ [k0]⟩
          (by
            intro x
            simp only [List.map_cons, List.mem_cons, List.mem_append,
              List.mem_singleton]
            rw [hiff x]
            tauto)
          (by simpa using Nat.succ_le_succ hlen)
          (by
            rw [List.nodup_append]
            refine ⟨hnd, List.nodup_singleton _, ?_⟩
            intro a ha hb
            rw [List.mem_singleton] at hb
            subst hb
            exact hk0log ha)
          (by
            intro kv hkv
            rcases List.mem_cons.mp hkv with h | h
            · rw [h]
            · exact hval kv h)
          (by
            have hcong : newDistinct (st.fetchLog ++ [k0]) rest =
                newDistinct (k0 :: st.fetchLog) rest := by
              refine newDistinct_congr rest _ _ ?_
              intro x
              simp [or_comm]
            simp only [List.length_append, List.length_singleton, hcong]
            omega)
        refine ⟨?_, hres.2⟩
        intro k
        rw [hres.1 k]
        have hca : countKey k (st.fetchLog ++ [k0]) =
            countKey k st.fetchLog + (if k = k0 then 1 else 0) := by
          rw [countKey_append]
          show countKey k st.fetchLog + ((if k0 = k then 1 else 0) + 0) = _
          by_cases h : k = k0
          · rw [if_pos h, if_pos (Eq.symm h)]
          · rw [if_neg h, if_neg (fun e => h (Eq.symm e))]
        rw [hca]
        by_cases hkk : k = k0
        · subst hkk
          have h2 : ¬ (k ∈ rest ∧ k ∉ st.fetchLog ++ [k]) := by
            intro hcon
            exact hcon.2 (by simp)
          rw [if_pos rfl, if_neg h2, if_pos ⟨by simp, hk0log⟩]
        · rw [if_neg hkk]
          have hiff2 : (k ∈ rest ∧ k ∉ st.fetchLog ++ [k0]) ↔
              (k ∈ k0 :: rest ∧ k ∉ st.fetchLog) := by
            constructor
            · rintro ⟨h1, h2⟩
              exact ⟨List.mem_cons_of_mem _ h1, fun hl => h2 (by simp [hl])⟩
            · rintro ⟨h1, h2⟩
              rcases List.mem_cons.mp h1 with h | h
              · exact absurd h hkk
              · refine ⟨h, ?_⟩
                intro hl
                rcases List.mem_append.mp hl with h3 | h3
                · exact h2 h3
                · rw [List.mem_singleton] at h3
                  exact hkk h3
          rw [if_congr hiff2 rfl rfl]
          omega
      · -- hit: the stored value is returned, the log is unchanged
        have hk0mem : (k0, v) ∈ st.entries := cacheLookup_mem _ _ _ hk0
        have hk0fst : k0 ∈ st.entries.map Prod.fst := by
          exact List.mem_map.mpr ⟨(k0, v), hk0mem, rfl⟩
        have hk0log : k0 ∈ st.fetchLog := (hiff k0).mp hk0fst
        have hstep : (lruCall maxsize fetch st k0).2 =
            ⟨(k0, v) :: removeKey st.entries k0, st.fetchLog⟩ := by
          simp [lruCall, hk0]
        rw [hstep]
        have hres := ih ⟨(k0, v) :: removeKey st.entries k0, st.fetchLog⟩
          (by
            intro x
            simp only [List.map_cons, List.mem_cons, removeKey_mem_fst]
            constructor
            · rintro (rfl | ⟨h, _⟩)
              · exact hk0log
              · exact (hiff x).mp h
            · intro hx
              by_cases hxk : x = k0
              · exact Or.inl hxk
              · exact Or.inr ⟨(hiff x).mpr hx, hxk⟩)
          (by
            have := removeKey_length_lt st.entries k0 hk0fst
            simp only [List.length_cons]
            omega)
          hnd
          (by
            intro kv hkv
            rcases List.mem_cons.mp hkv with h | h
            · rw [h]
              exact hval (k0, v) hk0mem
            · exact hval kv ((removeKey_mem _ _ _).mp h).1)
          (by
            have : newDistinct st.fetchLog (k0 :: rest) =
                newDistinct st.fetchLog rest := by
              simp [newDistinct, hk0log]
            dsimp only
            omega)
        refine ⟨?_, hres.2⟩
        intro k
        rw [hres.1 k]
        by_cases hkk : k = k0
        · subst hkk
          simp [hk0log]
        · have : (k ∈ k0 :: rest ∧ k ∉ st.fetchLog) ↔ (k ∈ rest ∧ k ∉ st.fetchLog) := by
            simp [hkk]
          rw [if_congr this rfl rfl]

/-- On any consistent state, a cached call returns the fetched value for
its key (on a hit, the previously fetched value). -/
theorem lruCall_value {κ ν : Type} [DecidableEq κ] (maxsize : Nat) (fetch : κ → ν)
    (st : LruState κ ν) (k : κ)
    (hval : ∀ kv ∈ st.entries, kv.2 = fetch kv.1) :
    (lruCall maxsize fetch st k).1 = fetch k := by
  rcases hk : cacheLookup st.entries k with _ | v
  · simp [lruCall, hk]
  · have := hval (k, v) (cacheLookup_mem _ _ _ hk)
    simp only [lruCall, hk]
    exact this


set_option maxRecDepth 40000 in
/-- C5 counterexample: `@lru_cache()` defaults to `maxsize=128`, so after
129 distinct submission ids the least recently used entry is evicted:
asking for the first key again triggers a second fetch, so a unique key is
not fetched at most once no matter how many distinct keys were queried. -/
theorem c5_counterexample :
    countKey (("0", none, none) : SubmissionKey)
      (get_submission_run (fun _ => Meta.obj [])
        (((List.range 129).map (fun i => (toString i, none, none))) ++
          [("0", none, none)])).fetchLog = 2 := by rfl

/-- C5 (amended): `get_submission` and `get_workflow` memoize per unique
argument tuple through an LRU cache with the CPython default capacity of
128 entries.  As long as at most 128 distinct argument tuples have been
queried, no eviction occurs: each unique key is fetched at most once
(exactly once if queried), and every call returns the value fetched for
its key without a new network call.  Beyond 128 distinct keys,
least-recently-used entries are evicted and can be fetched again. -/
theorem c5_memoization_amended :
    (∀ (fetch : SubmissionKey → Meta) (ks : List SubmissionKey) (k : SubmissionKey),
      newDistinct [] ks ≤ 128 →
      countKey k (get_submission_run fetch ks).fetchLog = (if k ∈ ks then 1 else 0) ∧
      (get_submission fetch (get_submission_run fetch ks) k).1 = fetch k) ∧
    (∀ (fetch : WorkflowKey → Meta) (ks : List WorkflowKey) (k : WorkflowKey),
      newDistinct [] ks ≤ 128 →
      countKey k (get_workflow_run fetch ks).fetchLog = (if k ∈ ks then 1 else 0) ∧
      (get_workflow fetch (get_workflow_run fetch ks) k).1 = fetch k) := by
  constructor
  · intro fetch ks k hbound
    have hrun := lruRun_memoizes 128 fetch ks ⟨[], []⟩
      (by simp) (by simp) (by simp) (by simp) (by simpa using hbound)
    constructor
    · have := hrun.1 k
      simpa [get_submission_run, get_submission, countKey] using this
    · refine lruCall_value 128 fetch _ k ?_
      have := hrun.2
      simpa [get_submission_run, get_submission] using this
  · intro fetch ks k hbound
    have hrun := lruRun_memoizes 128 fetch ks ⟨[], []⟩
      (by simp) (by simp) (by simp) (by simp) (by simpa using hbound)
    constructor
    · have := hrun.1 k
      simpa [get_workflow_run, get_workflow, countKey] using this
    · refine lruCall_value 128 fetch _ k ?_
      have := hrun.2
      simpa [get_workflow_run, get_workflow] using this

/-- C5 witness: the submission id `a` is queried twice among three calls;
within the 128-entry capacity it is fetched exactly once and the repeated
call returns the fetched value. -/
theorem c5_witness :
    countKey (("a", none, none) : SubmissionKey)
      (get_submission_run (fun _ => Meta.obj [])
        [("a", none, none), ("b", none, none), ("a", none, none)]).fetchLog = 1 ∧
    (get_submission (fun _ => Meta.obj [])
      (get_submission_run (fun _ => Meta.obj [])
        [("a", none, none), ("b", none, none), ("a", none, none)])
      ("a", none, none)).1 = Meta.obj [] := by
  have h := c5_memoization_amended.1 (fun _ => Meta.obj [])
    [("a", none, none), ("b", none, none), ("a", none, none)] ("a", none, none)
    (by decide)
  refine ⟨?_, h.2⟩
  rw [h.1]
  decide

/-- Invariant proof for the discoverer traversal: starting from a
consistent frontier/visited pair, a completed run (empty remaining
frontier) visits a duplicate-free set of identifiers that contains the
initial visited set and frontier, consists only of reachable identifiers,
and is closed under expansion. -/
theorem crun_spec (expand : String → List String) (seeds : List String) :
    ∀ (fuel : Nat) (frontier visited : List String),
      visited.Nodup →
      (∀ x ∈ visited, ReachesFrom expand seeds x) →
      (∀ x ∈ frontier, ReachesFrom expand seeds x) →
      (∀ v ∈ visited, ∀ y ∈ expand v, y ∈ visited ∨ y ∈ frontier) →
      (crun expand fuel frontier visited).2 = [] →
      ((crun expand fuel frontier visited).1.Nodup ∧
       (∀ x ∈ visited, x ∈ (crun expand fuel frontier visited).1) ∧
       (∀ x ∈ frontier, x ∈ (crun expand fuel frontier visited).1) ∧
       (∀ x ∈ (crun expand fuel frontier visited).1, ReachesFrom expand seeds x) ∧
       (∀ v ∈ (crun expand fuel frontier visited).1, ∀ y ∈ expand v,
         y ∈ (crun expand fuel frontier visited).1)) := by
  intro fuel
  induction fuel with
  | zero =>
      intro frontier visited hnd hreachV hreachF hclosed hdone
      have hf : frontier = [] := hdone
      subst hf
      refine ⟨hnd, fun x hx => hx, ?_, hreachV, ?_⟩
      · intro x hx
        exact absurd hx (List.not_mem_nil x)
      · intro v hv y hy
        rcases hclosed v hv y hy with h | h
        · exact h
        · exact absurd h (List.not_mem_nil y)
  | succ fuel ih =>
      intro frontier visited hnd hreachV hreachF hclosed hdone
      cases frontier with
      | nil =>
          refine ⟨hnd, fun x hx => hx, ?_, hreachV, ?_⟩
          · intro x hx
            exact absurd hx (List.not_mem_nil x)
          · intro v hv y hy
            rcases hclosed v hv y hy with h | h
            · exact h
            · exact absurd h (List.not_mem_nil y)
      | cons id fr =>
          by_cases hid : id ∈ visited
          · have he : crun expand (fuel + 1) (id :: fr) visited =
                crun expand fuel fr visited := by
              rw [crun, if_pos hid]
            rw [he] at hdone ⊢
            have hres := ih fr visited hnd hreachV
              (fun x hx => hreachF x (List.mem_cons_of_mem _ hx))
              (by
                intro v hv y hy
                rcases hclosed v hv y hy with h | h
                · exact Or.inl h
                · rcases List.mem_cons.mp h with h1 | h1
                  · subst h1
                    exact Or.inl hid
                  · exact Or.inr h1)
              hdone
            refine ⟨hres.1, hres.2.1, ?_, hres.2.2.2.1, hres.2.2.2.2⟩
            intro x hx
            rcases List.mem_cons.mp hx with h1 | h1
            · subst h1
              exact hres.2.1 x hid
            · exact hres.2.2.1 x h1
          · have he : crun expand (fuel + 1) (id :: fr) visited =
                crun expand fuel (fr ++ expand id) (visited ++ [id]) := by
              rw [crun, if_neg hid]
            rw [he] at hdone ⊢
            have hreachid : ReachesFrom expand seeds id := hreachF id (List.mem_cons_self _ _)
            have hres := ih (fr ++ expand id) (visited ++ [id])
              (by
                rw [List.nodup_append]
                refine ⟨hnd, List.nodup_singleton _, ?_⟩
                intro a ha hb
                rw [List.mem_singleton] at hb
                subst hb
                exact hid ha)
              (by
                intro x hx
                rcases List.mem_append.mp hx with h | h
                · exact hreachV x h
                · rw [List.mem_singleton] at h
                  subst h
                  exact hreachid)
              (by
                intro x hx
                rcases List.mem_append.mp hx with h | h
                · exact hreachF x (List.mem_cons_of_mem _ h)
                · exact ReachesFrom.step hreachid h)
              (by
                intro v hv y hy
                rcases List.mem_append.mp hv with h | h
                · rcases hclosed v h y hy with h1 | h1
                  · exact Or.inl (List.mem_append.mpr (Or.inl h1))
                  · rcases List.mem_cons.mp h1 with h2 | h2
                    · subst h2
                      exact Or.inl (List.mem_append.mpr (Or.inr (List.mem_singleton.mpr rfl)))
                    · exact Or.inr (List.mem_append.mpr (Or.inl h2))
                · rw [List.mem_singleton] at h
                  subst h
                  exact Or.inr (List.mem_append.mpr (Or.inr hy)))
              hdone
            refine ⟨hres.1, ?_, ?_, hres.2.2.2.1, hres.2.2.2.2⟩
            · intro x hx
              exact hres.2.1 x (List.mem_append.mpr (Or.inl hx))
            · intro x hx
              rcases List.mem_cons.mp hx with h1 | h1
              · subst h1
                exact hres.2.1 x (List.mem_append.mpr (Or.inr (List.mem_singleton.mpr rfl)))
              · exact hres.2.2.1 x (List.mem_append.mpr (Or.inl h1))

/-- A completed discoverer run visits exactly the reachable identifiers,
each at most once. -/
theorem crun_reachable (expand : String → List String) (seeds : List String)
    (fuel : Nat) (hdone : (crun expand fuel seeds []).2 = []) :
    (crun expand fuel seeds []).1.Nodup ∧
    (∀ x, x ∈ (crun expand fuel seeds []).1 ↔ ReachesFrom expand seeds x) := by
  have hres := crun_spec expand seeds fuel seeds []
    List.nodup_nil
    (by intro x hx; exact absurd hx (List.not_mem_nil x))
    (fun x hx => ReachesFrom.seed hx)
    (by intro v hv; exact absurd hv (List.not_mem_nil v))
    hdone
  refine ⟨hres.1, ?_⟩
  intro x
  constructor
  · exact hres.2.2.2.1 x
  · intro hr
    induction hr with
    | seed h => exact hres.2.2.1 _ h
    | step hx hy ihx => exact hres.2.2.2.2 _ ihx _ hy

/-- C9: assuming the concurrent-expansion collaborator expands each newly
discovered identifier exactly once (which the sequential model `crun`
realises through its visited set) and the run completes, the mapping
returned by `get_all_workflows` has duplicate-free keys (so each workflow's
metadata is fetched by the expansion function exactly once), its keys are
exactly the submission's initial workflow identifiers (entries without a
workflow-identifier field contribute nothing, by `initial_workflow_ids`)
together with every transitively reachable sub-workflow identifier, and
each key maps to that workflow's metadata.  On the concrete example with
initial workflows A, B (plus one entry with no identifier), A referencing
sub-workflow C and C referencing sub-workflow D, the keys are exactly
A, B, C, D. -/
theorem c9_get_all_workflows (env : String → Meta) (submission : Meta) (fuel : Nat)
    (hdone : (crun (expandOf env) fuel (initial_workflow_ids submission) []).2 = []) :
    ((get_all_workflows env submission fuel).map Prod.fst).Nodup ∧
    (∀ id, id ∈ (get_all_workflows env submission fuel).map Prod.fst ↔
      ReachesFrom (expandOf env) (initial_workflow_ids submission) id) ∧
    (∀ id wf, (id, wf) ∈ get_all_workflows env submission fuel → wf = env id) ∧
    (get_all_workflows envEx subEx 16).map Prod.fst = ["A", "B", "C", "D"] := by
  have hkeys : (get_all_workflows env submission fuel).map Prod.fst =
      (crun (expandOf env) fuel (initial_workflow_ids submission) []).1 := by
    simp only [get_all_workflows, List.map_map]
    exact List.map_id _
  have hres := crun_reachable (expandOf env) (initial_workflow_ids submission) fuel hdone
  refine ⟨by rw [hkeys]; exact hres.1, ?_, ?_, by rfl⟩
  · intro id
    rw [hkeys]
    exact hres.2 id
  · intro id wf hm
    simp only [get_all_workflows, List.mem_map] at hm
    obtain ⟨a, _, ha⟩ := hm
    obtain ⟨rfl, rfl⟩ := Prod.mk.injEq .. ▸ ha
    rfl

/-- C9 witness: the concrete example run completes, its keys are
duplicate-free, and they are exactly A, B, C, D. -/
theorem c9_witness :
    ((get_all_workflows envEx subEx 16).map Prod.fst).Nodup ∧
    (get_all_workflows envEx subEx 16).map Prod.fst = ["A", "B", "C", "D"] :=
  ⟨(c9_get_all_workflows envEx subEx 16 (by rfl)).1,
   (c9_get_all_workflows envEx subEx 16 (by rfl)).2.2.2⟩
